import Mathlib

/-!
Verification of the nba-predictor pipeline.

The Python sources are shallowly embedded: Python floats become `Rat`,
`Optional` values become `Option`, dictionaries become association lists,
and effectful code (file cache reads keyed by modification time, live
network fetch attempts) is modelled by passing the effect outcomes in as
explicit arguments.  Each definition carries a comment naming the source
function it embeds.
-/

namespace NBAPred

/-! ### tools/features.py -/

/-- Embeds `american_to_implied` (src/tools/features.py, lines 46-55):
convert American odds to implied probability; `None` propagates, and
odds of exactly 0 also yield `None`. -/
def american_to_implied : Option Int → Option Rat
  | none => none
  | some odds =>
    if odds < 0 then some (((-odds : Int) : Rat) / (((-odds : Int) : Rat) + 100))
    else if 0 < odds then some (100 / ((odds : Rat) + 100))
    else none

/-- Embeds `ev_from_prob` (src/tools/features.py, lines 58-70):
expected value per unit stake, `EV = p * profit - (1 - p)` with
profit `odds/100` for positive odds and `100/(-odds)` otherwise. -/
def ev_from_prob (p : Rat) (odds : Int) : Rat :=
  let profit : Rat := if 0 < odds then (odds : Rat) / 100 else 100 / ((-odds : Int) : Rat)
  p * profit - (1 - p)

/-- Embeds `kelly_fraction` (src/tools/features.py, lines 73-90):
Kelly fraction with the source's defensive `denom == 0` guard and the
final floor at 0. -/
def kelly_fraction (p : Rat) (odds : Int) : Rat :=
  let b : Rat := if 0 < odds then (odds : Rat) / 100 else 100 / ((-odds : Int) : Rat)
  let numer := p * (b + 1) - 1
  let denom := b
  if denom = 0 then 0 else max 0 (numer / denom)

/-! ### tools/injuries.py -/

/-- Embeds `clamp` (src/tools/injuries.py): `hi if x > hi else lo if x < lo else x`. -/
def clamp (x lo hi : Rat) : Rat :=
  if x > hi then hi else if x < lo then lo else x

/-- Embeds the dictionary lookup `adj.get(team, 0.0)` used by
`adjust_home_prob`; the adjustments mapping loaded from injuries.json is
modelled as an association list (a missing or malformed file loads as `[]`). -/
def getAdj (adj : List (String × Rat)) (team : String) : Rat :=
  match List.lookup team adj with
  | some v => v
  | none => 0

/-- Embeds `adjust_home_prob` (src/tools/injuries.py, lines 15-31):
`clamp(p + adj.get(home, 0) - adj.get(away, 0), 0.01, 0.99)`. -/
def adjust_home_prob (adj : List (String × Rat)) (home_team away_team : String)
    (p_home : Rat) : Rat :=
  clamp (p_home + getAdj adj home_team - getAdj adj away_team) (1/100) (99/100)

/-! ### helper lemmas -/

lemma clamp_le (x lo hi : Rat) (h : lo ≤ hi) : clamp x lo hi ≤ hi := by
  unfold clamp
  split_ifs <;> linarith

lemma le_clamp (x lo hi : Rat) (h : lo ≤ hi) : lo ≤ clamp x lo hi := by
  unfold clamp
  split_ifs <;> linarith

lemma clamp_of_mem (x lo hi : Rat) (h1 : lo ≤ x) (h2 : x ≤ hi) : clamp x lo hi = x := by
  unfold clamp
  split_ifs <;> linarith

lemma clamp_of_lt (x lo hi : Rat) (h1 : x < lo) (h2 : lo ≤ hi) : clamp x lo hi = lo := by
  unfold clamp
  split_ifs <;> linarith

lemma clamp_of_gt (x lo hi : Rat) (h1 : hi < x) : clamp x lo hi = hi := by
  unfold clamp
  split_ifs <;> linarith

lemma neg_int_cast_abs (a : Int) (h : a < 0) : ((-a : Int) : Rat) = |(a : Rat)| := by
  have : (a : Rat) < 0 := by exact_mod_cast h
  rw [abs_of_neg this]
  push_cast
  ring

/-! ### claim theorems: scorer formulas -/

/-- C5: the implied probability of American odds `a` is `(-a)/((-a)+100)`
for negative `a` and `100/(a+100)` for positive `a`; an absent odds value
yields no value; `-150 ↦ 0.6` and `+200 ↦ 1/3`. -/
theorem american_to_implied_spec (a : Int) :
    (a < 0 → american_to_implied (some a) =
      some (((-a : Int) : Rat) / (((-a : Int) : Rat) + 100))) ∧
    (0 < a → american_to_implied (some a) = some (100 / ((a : Rat) + 100))) ∧
    american_to_implied none = none ∧
    american_to_implied (some (-150)) = some (3/5) ∧
    american_to_implied (some 200) = some (1/3) := by
  refine ⟨fun h => ?_, fun h => ?_, rfl, by norm_num [american_to_implied],
    by norm_num [american_to_implied]⟩
  · simp [american_to_implied, h]
  · have h' : ¬ a < 0 := by omega
    simp [american_to_implied, h, h']

/-- Witness for C5 at the spec's concrete inputs `-150` and `+200`. -/
theorem american_to_implied_spec_witness :
    american_to_implied (some (-150)) = some (3/5) ∧
    american_to_implied (some 200) = some (1/3) := by
  constructor
  · exact ((american_to_implied_spec (-150)).1 (by decide)).trans (by norm_num)
  · exact ((american_to_implied_spec 200).2.1 (by decide)).trans (by norm_num)

/-- C6: for nonzero odds `a`, `ev_from_prob p a = p * profit - (1 - p)` with
profit `a/100` for `a > 0` and `100/|a|` otherwise; EV at `p = 1/2`,
`a = +100` is 0. -/
theorem ev_from_prob_spec (p : Rat) (a : Int) (ha : a ≠ 0) :
    ev_from_prob p a =
      p * (if 0 < a then (a : Rat) / 100 else 100 / |(a : Rat)|) - (1 - p) ∧
    ev_from_prob (1/2) 100 = 0 := by
  refine ⟨?_, by norm_num [ev_from_prob]⟩
  rcases lt_or_gt_of_ne ha with h | h
  · have h1 : ¬ (0 : Int) < a := by omega
    simp [ev_from_prob, h1, neg_int_cast_abs a h]
  · simp [ev_from_prob, h]

/-- Witness for C6 at `p = 1/2`, `a = +100`. -/
theorem ev_from_prob_spec_witness :
    ev_from_prob (1/2) 100 =
      (1/2) * (if (0:Int) < 100 then ((100:Int) : Rat) / 100 else 100 / |((100:Int) : Rat)|)
        - (1 - 1/2) ∧
    ev_from_prob (1/2) 100 = 0 :=
  ⟨(ev_from_prob_spec (1/2) 100 (by decide)).1, (ev_from_prob_spec (1/2) 100 (by decide)).2⟩

/-- C7: for `p ∈ (0,1)` and nonzero odds `a`, the profit multiplier `b` is
strictly positive, the Kelly fraction equals `max 0 ((p*(b+1)-1)/b)`, is
never negative, and is 0 at `p = 1/2`, `a = +100`. -/
theorem kelly_fraction_spec (p : Rat) (a : Int) (hp0 : 0 < p) (hp1 : p < 1) (ha : a ≠ 0) :
    (0 < (if 0 < a then (a : Rat) / 100 else 100 / |(a : Rat)|)) ∧
    kelly_fraction p a =
      max 0 ((p * ((if 0 < a then (a : Rat) / 100 else 100 / |(a : Rat)|) + 1) - 1) /
        (if 0 < a then (a : Rat) / 100 else 100 / |(a : Rat)|)) ∧
    0 ≤ kelly_fraction p a ∧
    kelly_fraction (1/2) 100 = 0 := by
  have hbpos : 0 < (if 0 < a then (a : Rat) / 100 else 100 / |(a : Rat)|) := by
    split_ifs with h
    · positivity
    · have h2 : (0:Rat) < |(a : Rat)| := by
        have h3 : (a : Rat) ≠ 0 := by exact_mod_cast ha
        exact abs_pos.mpr h3
      positivity
  refine ⟨hbpos, ?_, ?_, by norm_num [kelly_fraction]⟩
  · rcases lt_or_gt_of_ne ha with h | h
    · have h1 : ¬ (0 : Int) < a := by omega
      simp only [h1, if_false] at hbpos ⊢
      rw [show kelly_fraction p a =
          if (100 : Rat) / ((-a : Int) : Rat) = 0 then 0
          else max 0 ((p * (100 / ((-a : Int) : Rat) + 1) - 1) /
            (100 / ((-a : Int) : Rat))) by simp [kelly_fraction, h1]]
      rw [neg_int_cast_abs a h]
      exact if_neg (ne_of_gt hbpos)
    · simp only [h, if_true] at hbpos ⊢
      rw [show kelly_fraction p a =
          if (a : Rat) / 100 = 0 then 0
          else max 0 ((p * ((a : Rat) / 100 + 1) - 1) / ((a : Rat) / 100)) by
            simp [kelly_fraction, h]]
      exact if_neg (ne_of_gt hbpos)
  · rw [show kelly_fraction p a =
        (let b : Rat := if 0 < a then (a : Rat) / 100 else 100 / ((-a : Int) : Rat)
         if b = 0 then 0 else max 0 ((p * (b + 1) - 1) / b)) from rfl]
    dsimp only
    split_ifs <;> first
      | exact le_refl 0
      | exact le_max_left 0 _

/-- Witness for C7 at `p = 1/2`, `a = +100`. -/
theorem kelly_fraction_spec_witness :
    0 ≤ kelly_fraction (1/2) 100 ∧ kelly_fraction (1/2) 100 = 0 :=
  ⟨(kelly_fraction_spec (1/2) 100 (by norm_num) (by norm_num) (by norm_num)).2.2.1,
   (kelly_fraction_spec (1/2) 100 (by norm_num) (by norm_num) (by norm_num)).2.2.2⟩

/-! ### claim theorems: probability adjuster -/

/-- C8: the adjusted home probability is
`clamp (p + offset home - offset away) 0.01 0.99`, a team absent from the
mapping has offset 0, and the output always lies within `[0.01, 0.99]`. -/
theorem adjust_home_prob_spec (adj : List (String × Rat)) (home away : String) (p : Rat) :
    adjust_home_prob adj home away p =
      clamp (p + getAdj adj home - getAdj adj away) (1/100) (99/100) ∧
    (List.lookup home adj = none → getAdj adj home = 0) ∧
    1/100 ≤ adjust_home_prob adj home away p ∧
    adjust_home_prob adj home away p ≤ 99/100 := by
  refine ⟨rfl, fun h => by simp [getAdj, h], ?_, ?_⟩
  · exact le_clamp _ _ _ (by norm_num)
  · exact clamp_le _ _ _ (by norm_num)

/-- Witness for C8 on a concrete adjustment map and probability. -/
theorem adjust_home_prob_spec_witness :
    getAdj [("Boston Celtics", (-3/50 : Rat))] "Miami Heat" = 0 ∧
    1/100 ≤ adjust_home_prob [("Boston Celtics", (-3/50 : Rat))]
      "Miami Heat" "Boston Celtics" (1/2) := by
  constructor
  · exact (adjust_home_prob_spec [("Boston Celtics", (-3/50 : Rat))]
      "Miami Heat" "Boston Celtics" (1/2)).2.1 (by rfl)
  · exact (adjust_home_prob_spec [("Boston Celtics", (-3/50 : Rat))]
      "Miami Heat" "Boston Celtics" (1/2)).2.2.1

/-- C10: with an empty adjustment mapping (or when neither team has an
entry) the adjuster reduces to `clamp p 0.01 0.99`: it is the identity for
`p` within `[0.01, 0.99]` but returns the clamped bound for `p` outside it. -/
theorem adjust_home_prob_no_adjustment (home away : String) (p : Rat) :
    adjust_home_prob [] home away p = clamp p (1/100) (99/100) ∧
    (1/100 ≤ p → p ≤ 99/100 → adjust_home_prob [] home away p = p) ∧
    (p < 1/100 → adjust_home_prob [] home away p = 1/100) ∧
    (99/100 < p → adjust_home_prob [] home away p = 99/100) ∧
    (∀ adj : List (String × Rat), List.lookup home adj = none →
      List.lookup away adj = none →
      adjust_home_prob adj home away p = clamp p (1/100) (99/100)) := by
  have hbase : adjust_home_prob [] home away p = clamp p (1/100) (99/100) := by
    simp [adjust_home_prob, getAdj]
  refine ⟨hbase, fun h1 h2 => ?_, fun h => ?_, fun h => ?_, fun adj h1 h2 => ?_⟩
  · rw [hbase]; exact clamp_of_mem _ _ _ h1 h2
  · rw [hbase]; exact clamp_of_lt _ _ _ h (by norm_num)
  · rw [hbase]; exact clamp_of_gt _ _ _ h
  · simp [adjust_home_prob, getAdj, h1, h2]

/-- Witness for C10: identity at `p = 1/2`, clamped at `p = 0`. -/
theorem adjust_home_prob_no_adjustment_witness :
    adjust_home_prob [] "A" "B" (1/2) = 1/2 ∧
    adjust_home_prob [] "A" "B" 0 = 1/100 :=
  ⟨(adjust_home_prob_no_adjustment "A" "B" (1/2)).2.1 (by norm_num) (by norm_num),
   (adjust_home_prob_no_adjustment "A" "B" 0).2.2.1 (by norm_num)⟩

/-! ### tools/odds_tool.py -/

/-- Embeds `_american_payout_per_dollar` (src/tools/odds_tool.py, lines 8-13):
net payout for a one-dollar stake, `a/100` when `a >= 100`, else `100/abs(a)`. -/
def american_payout_per_dollar (a : Int) : Rat :=
  if 100 ≤ a then (a : Rat) / 100 else 100 / |(a : Rat)|

/-- Embeds `_choose_better_moneyline` (src/tools/odds_tool.py, lines 15-21):
pick the line with the higher payout; a `None` challenger keeps the
incumbent, a `None` incumbent is replaced, and on a payout tie the
incumbent is kept. -/
def choose_better_moneyline : Option Int → Option Int → Option Int
  | current, none => current
  | none, some n => some n
  | some c, some n =>
    if american_payout_per_dollar n > american_payout_per_dollar c then some n else some c

/-- Embeds the per-outcome update for the spreads and totals markets in
`get_nba_odds` (src/tools/odds_tool.py, lines 107-139): the stored side
state is a price together with its point; the incoming quote's price is
compared with `_choose_better_moneyline`, and only when the winner differs
from the incumbent are the price and the quote's point stored together. -/
def update_priced_side (cur : Option Int × Option Rat) (price : Option Int)
    (point : Option Rat) : Option Int × Option Rat :=
  let better := choose_better_moneyline cur.1 price
  if better ≠ cur.1 then (better, point) else cur

lemma choose_better_moneyline_idem (x pr : Option Int) :
    choose_better_moneyline (choose_better_moneyline x pr) pr =
      choose_better_moneyline x pr := by
  cases pr with
  | none => cases x <;> rfl
  | some n =>
    cases x with
    | none => simp [choose_better_moneyline]
    | some c =>
      by_cases h : american_payout_per_dollar n > american_payout_per_dollar c
      · simp [choose_better_moneyline, h]
      · simp [choose_better_moneyline, h]

/-! ### claim theorems: best-price comparator and aggregation -/

/-- C3: the moneyline comparator selects the price with the larger
payout-per-dollar, where the payout is `a/100` for positive odds
`a ≥ 100` and `100/|a|` for negative odds, and a payout tie keeps the
incumbent current price. -/
theorem choose_better_moneyline_spec (c n : Int) :
    choose_better_moneyline (some c) (some n) =
      (if american_payout_per_dollar c < american_payout_per_dollar n
        then some n else some c) ∧
    (100 ≤ c → american_payout_per_dollar c = (c : Rat) / 100) ∧
    (c < 0 → american_payout_per_dollar c = 100 / |(c : Rat)|) ∧
    (american_payout_per_dollar c = american_payout_per_dollar n →
      choose_better_moneyline (some c) (some n) = some c) := by
  refine ⟨rfl, fun h => ?_, fun h => ?_, fun h => ?_⟩
  · simp [american_payout_per_dollar, h]
  · have h' : ¬ (100 : Int) ≤ c := by omega
    simp [american_payout_per_dollar, h']
  · simp [choose_better_moneyline, h]

/-- Witness for C3 on concrete odds `-150` versus `+200`
(payouts `2/3` and `2`). -/
theorem choose_better_moneyline_spec_witness :
    american_payout_per_dollar 200 = ((200 : Int) : Rat) / 100 ∧
    american_payout_per_dollar (-150) = 100 / |((-150 : Int) : Rat)| ∧
    choose_better_moneyline (some 100) (some (-100)) = some 100 := by
  refine ⟨(choose_better_moneyline_spec 200 200).2.1 (by decide),
    (choose_better_moneyline_spec (-150) (-150)).2.2.1 (by decide),
    (choose_better_moneyline_spec 100 (-100)).2.2.2 ?_⟩
  norm_num [american_payout_per_dollar]

/-- C4: feeding a side's stored best price the identical quote again leaves
the state unchanged (for both the bare moneyline fold and the
price-with-point fold), a strictly worse-payout quote leaves it unchanged,
and a strictly better-payout quote replaces the price and simultaneously
adopts that same quote's point. -/
theorem best_price_fold_spec (s : Option Int × Option Rat) (pr : Option Int)
    (pt : Option Rat) (c n : Int) (spt : Option Rat) :
    update_priced_side (update_priced_side s pr pt) pr pt =
      update_priced_side s pr pt ∧
    choose_better_moneyline (choose_better_moneyline s.1 pr) pr =
      choose_better_moneyline s.1 pr ∧
    (american_payout_per_dollar n < american_payout_per_dollar c →
      update_priced_side (some c, spt) (some n) pt = (some c, spt)) ∧
    (american_payout_per_dollar n < american_payout_per_dollar c →
      choose_better_moneyline (some c) (some n) = some c) ∧
    (american_payout_per_dollar c < american_payout_per_dollar n →
      update_priced_side (some c, spt) (some n) pt = (some n, pt)) ∧
    (american_payout_per_dollar c < american_payout_per_dollar n →
      choose_better_moneyline (some c) (some n) = some n) := by
  have hworse : american_payout_per_dollar n < american_payout_per_dollar c →
      choose_better_moneyline (some c) (some n) = some c := by
    intro h
    have h' : ¬ american_payout_per_dollar n > american_payout_per_dollar c :=
      not_lt_of_gt h
    simp [choose_better_moneyline, h']
  have hbetter : american_payout_per_dollar c < american_payout_per_dollar n →
      choose_better_moneyline (some c) (some n) = some n := by
    intro h
    simp [choose_better_moneyline, h]
  refine ⟨?_, choose_better_moneyline_idem s.1 pr, fun h => ?_, hworse, fun h => ?_, hbetter⟩
  · have hidem := choose_better_moneyline_idem s.1 pr
    by_cases hch : choose_better_moneyline s.1 pr = s.1
    · have h1 : update_priced_side s pr pt = s := by
        simp [update_priced_side, hch]
      rw [h1]
      exact h1
    · have h1 : update_priced_side s pr pt = (choose_better_moneyline s.1 pr, pt) := by
        simp [update_priced_side, hch]
      rw [h1]
      simp [update_priced_side, hidem]
  · have hc := hworse h
    simp [update_priced_side, hc]
  · have hc := hbetter h
    have hne : n ≠ c := by
      intro he
      rw [he] at h
      exact lt_irrefl _ h
    simp [update_priced_side, hc, hne]

/-- Witness for C4 at concrete prices: stored `+100` with point `-3.5`,
challengers `-110` (worse, payout `10/11`) and `+120` (better, payout `6/5`). -/
theorem best_price_fold_spec_witness :
    update_priced_side (some 100, some (-7/2)) (some (-110)) (some (5/2)) =
      (some 100, some (-7/2)) ∧
    update_priced_side (some 100, some (-7/2)) (some 120) (some (5/2)) =
      (some 120, some (5/2)) := by
  constructor
  · exact (best_price_fold_spec (some 100, some (-7/2)) (some (-110)) (some (5/2))
      100 (-110) (some (-7/2))).2.2.1 (by norm_num [american_payout_per_dollar])
  · exact (best_price_fold_spec (some 100, some (-7/2)) (some 120) (some (5/2))
      100 120 (some (-7/2))).2.2.2.2.1 (by norm_num [american_payout_per_dollar])

/-! ### chains.py: game intake and ranking -/

/-- Python string truthiness for an optional string field:
`None` and the empty string are falsy. -/
def truthyStr : Option String → Bool
  | none => false
  | some s => !(s == "")

/-- Python's `x or y` on optional string fields: yields `x` when truthy,
else `y` as-is. -/
def pyOrStr (x y : Option String) : Option String :=
  if truthyStr x then x else y

/-- A raw upstream game object as consumed by `get_nba_odds`
(src/tools/odds_tool.py, lines 58-72): possibly-missing home/away name
fields in either key style, plus an unordered two-team list
(`g.get("teams") or []` is modelled as the list itself, `[]` when absent). -/
structure RawGame where
  home_team : Option String
  homeTeam : Option String
  away_team : Option String
  awayTeam : Option String
  teams : List String
deriving DecidableEq

/-- The team-name part of a normalized game record. -/
structure GameRec where
  home : Option String
  away : Option String
deriving DecidableEq

/-- Embeds the team-name normalization of `get_nba_odds`
(src/tools/odds_tool.py, lines 58-72): `home = g.get("home_team") or
g.get("homeTeam")`, the same for away, then the away-team inference from a
two-element `teams` list when away is falsy and home is truthy. -/
def build_game_rec (g : RawGame) : GameRec :=
  let home := pyOrStr g.home_team g.homeTeam
  let away0 := pyOrStr g.away_team g.awayTeam
  let away :=
    if truthyStr away0 then away0
    else
      match g.teams with
      | [t0, t1] =>
        if truthyStr home then some (if home = some t0 then t1 else t0) else away0
      | _ => away0
  ⟨home, away⟩

/-- Embeds the per-game normalization loop of `get_nba_odds`
(src/tools/odds_tool.py, lines 82-147): every raw game yields one record,
with no filtering at this layer. -/
def get_nba_odds (raw : List RawGame) : List GameRec :=
  raw.map build_game_rec

/-- Embeds `fetch_odds` (src/chains.py, lines 26-31): keep only games with
both team names truthy. -/
def fetch_odds (raw : List RawGame) : List GameRec :=
  (get_nba_odds raw).filter (fun g => truthyStr g.home && truthyStr g.away)

/-- Python's `x or d` where `x` is an optional float and `d` a number:
`None` and a value of exactly 0 are falsy and give `d`. -/
def pyOrRat (x : Option Rat) (d : Rat) : Rat :=
  match x with
  | none => d
  | some v => if v = 0 then d else v

/-- One scored game as consumed by `rank_recs`: the per-side EV and edge
fields of the record built by `score_vs_market` (src/chains.py), each
possibly absent. -/
structure Scored where
  ev_home : Option Rat
  ev_away : Option Rat
  edge_home : Option Rat
  edge_away : Option Rat
deriving DecidableEq

/-- A scored game extended with the ranking fields added by `rank_recs`. -/
structure RankedRec extends Scored where
  best_side : String
  best_metric : Option Rat
  metric_name : String
deriving DecidableEq

/-- Embeds the per-game body of `rank_recs` (src/chains.py, lines 126-141):
if either side's EV is present, compare `(home_ev or -9) >= (away_ev or -9)`
and label the winner with metric name "EV"; otherwise do the same with the
edges under metric name "edge".  The chosen metric is the winning side's
raw optional value. -/
def rank_one (g : Scored) : RankedRec :=
  if g.ev_home ≠ none ∨ g.ev_away ≠ none then
    let best_side := if pyOrRat g.ev_home (-9) ≥ pyOrRat g.ev_away (-9) then "home" else "away"
    let best_metric := if best_side = "home" then g.ev_home else g.ev_away
    ⟨g, best_side, best_metric, "EV"⟩
  else
    let best_side :=
      if pyOrRat g.edge_home (-9) ≥ pyOrRat g.edge_away (-9) then "home" else "away"
    let best_metric := if best_side = "home" then g.edge_home else g.edge_away
    ⟨g, best_side, best_metric, "edge"⟩

/-- Sort key used by `rank_recs` (src/chains.py, line 143): the chosen
metric, with `None` replaced by the sentinel -999. -/
def sort_key (r : RankedRec) : Rat :=
  match r.best_metric with
  | none => -999
  | some v => v

/-- Stable descending insertion used to model Python's stable
`list.sort(key=..., reverse=True)`: an element arriving later is placed
after every earlier element whose key is not smaller. -/
def insertDesc (x : RankedRec) : List RankedRec → List RankedRec
  | [] => [x]
  | y :: ys => if sort_key y < sort_key x then x :: y :: ys else y :: insertDesc x ys

/-- Embeds `rank_recs` (src/chains.py, lines 126-144): label every scored
game via `rank_one`, then sort descending by `sort_key`, stably. -/
def rank_recs (scored : List Scored) : List RankedRec :=
  (scored.map rank_one).foldl (fun acc x => insertDesc x acc) []

/-- C1 failing inputs: the ranker treats a defined EV of exactly 0 as the
falsy sentinel.  With `ev_home = None` and `ev_away = 0` it picks the home
side and surfaces the undefined metric under the name "EV"; with
`ev_home = 0` and `ev_away = -1/2` it picks the away side even though the
home EV is strictly higher. -/
theorem rank_recs_zero_ev_divergence :
    rank_recs [⟨none, some 0, some 1, some (-1)⟩] =
      [⟨⟨none, some 0, some 1, some (-1)⟩, "home", none, "EV"⟩] ∧
    rank_recs [⟨some 0, some (-1), none, none⟩] =
      [⟨⟨some 0, some (-1), none, none⟩, "away", some (-1), "EV"⟩] := by
  constructor
  · decide
  · decide

/-- C9: every game surviving `fetch_odds` has both team names present and
non-empty; games missing a name after the away-team inference never reach
feature lookup, scoring or ranking, which all consume this filtered list. -/
theorem fetch_odds_drops_nameless (raw : List RawGame) (g : GameRec)
    (hg : g ∈ fetch_odds raw) :
    truthyStr g.home = true ∧ truthyStr g.away = true := by
  have h := List.mem_filter.mp hg
  have h2 := h.2
  simp only [Bool.and_eq_true] at h2
  exact h2

/-- Witness for C9: a concrete raw game with both names kept by the filter. -/
theorem fetch_odds_drops_nameless_witness :
    truthyStr (GameRec.mk (some "Boston Celtics") (some "Denver Nuggets")).home = true ∧
    truthyStr (GameRec.mk (some "Boston Celtics") (some "Denver Nuggets")).away = true :=
  fetch_odds_drops_nameless
    [⟨some "Boston Celtics", none, some "Denver Nuggets", none, []⟩]
    ⟨some "Boston Celtics", some "Denver Nuggets"⟩ (by decide)

/-! ### tools/cache.py and tools/stats_tool.py -/

/-- A persisted per-team game-log dataset; rows are abstracted to bare
identifiers since only emptiness and identity matter for the read path. -/
abbrev DF := List Nat

/-- Embeds `read_df_cache` (src/tools/cache.py, lines 12-22): the persisted
per-team file is modelled as `some (mtime, rows)`; the read succeeds only
when the file exists and its age `now - mtime` does not exceed
`max_age_hours * 3600` seconds. -/
def read_df_cache (cache : Option (Rat × DF)) (now : Rat) (max_age_hours : Rat) :
    Option DF :=
  match cache with
  | none => none
  | some (mtime, df) => if now - mtime > max_age_hours * 3600 then none else some df

/-- Embeds `_fetch_team_gamelog` (src/tools/stats_tool.py, lines 41-66):
the outcomes of the live fetch attempts are passed as a list, one entry per
loop iteration (`none` for a raised exception, `some rows` for a response).
A non-empty response is persisted (with the current time as its
modification time) and returned; an empty or failed response moves to the
next attempt; when every attempt is exhausted, the persisted dataset is
re-read with a 9999-hour staleness bound, and an empty dataset is the last
resort. -/
def fetch_team_gamelog (cache : Option (Rat × DF)) (now : Rat) :
    List (Option DF) → DF × Option (Rat × DF)
  | [] =>
    match read_df_cache cache now 9999 with
    | some df => (df, cache)
    | none => ([], cache)
  | a :: rest =>
    match a with
    | some df => if df.isEmpty then fetch_team_gamelog cache now rest else (df, some (now, df))
    | none => fetch_team_gamelog cache now rest

/-- Outcome of one tiered team-feature lookup: whether any live fetch was
issued, the dataset served, and the persisted state afterwards. -/
structure LookupResult where
  live_attempted : Bool
  df : DF
  cache : Option (Rat × DF)
deriving DecidableEq

/-- Embeds the tiered read path of `rolling_team_features`
(src/tools/stats_tool.py, lines 71-98): a fresh cache read (bounded by the
configured freshness window) is served as-is with no live call; otherwise
`_fetch_team_gamelog` runs the live attempts. -/
def rolling_team_features_lookup (cache : Option (Rat × DF)) (now : Rat)
    (max_age_hours : Rat) (attempts : List (Option DF)) : LookupResult :=
  match read_df_cache cache now max_age_hours with
  | some df => ⟨false, df, cache⟩
  | none =>
    let r := fetch_team_gamelog cache now attempts
    ⟨!attempts.isEmpty, r.1, r.2⟩

/-- C2 counterexample: with a persisted dataset whose age (10000 hours)
exceeds the 9999-hour bound that the source passes for its "any age"
fallback read, and with both live attempts failing, the lookup serves the
empty dataset instead of the persisted one — so the persisted dataset is
not used "regardless of age". -/
theorem rolling_lookup_stale_cap_counterexample :
    (rolling_team_features_lookup (some (0, [5])) 36000000 6 [none, none]).df = [] ∧
    (rolling_team_features_lookup (some (0, [5])) 36000000 6 [none, none]).df ≠ [5] := by
  constructor
  · norm_num [rolling_team_features_lookup, read_df_cache, fetch_team_gamelog]
  · norm_num [rolling_team_features_lookup, read_df_cache, fetch_team_gamelog]

/-- C2 (amended): the tiered read path is followed in order with first
success winning: a persisted dataset whose age is within the freshness
threshold is served as-is with no live fetch; otherwise the live attempts
run in order and the first non-empty response is persisted and served; if
every attempt fails the persisted dataset is served regardless of its age
up to the source's 9999-hour fallback bound; with no persisted dataset the
served dataset is empty.  A dataset written at time T is served with no
live call at T + 5h under the 6-hour threshold, and a live fetch is
attempted at T + 7h. -/
theorem rolling_lookup_tiered_spec (mtime now max_age_hours : Rat) (df : DF)
    (a1 a2 : Option DF) :
    (now - mtime ≤ max_age_hours * 3600 →
      rolling_team_features_lookup (some (mtime, df)) now max_age_hours [a1, a2] =
        ⟨false, df, some (mtime, df)⟩) ∧
    (max_age_hours * 3600 < now - mtime →
      ∀ d : DF, d ≠ [] → a1 = some d →
        rolling_team_features_lookup (some (mtime, df)) now max_age_hours [a1, a2] =
          ⟨true, d, some (now, d)⟩) ∧
    (max_age_hours * 3600 < now - mtime →
      (a1 = none ∨ a1 = some []) → ∀ d : DF, d ≠ [] → a2 = some d →
        rolling_team_features_lookup (some (mtime, df)) now max_age_hours [a1, a2] =
          ⟨true, d, some (now, d)⟩) ∧
    (max_age_hours * 3600 < now - mtime →
      (a1 = none ∨ a1 = some []) → (a2 = none ∨ a2 = some []) →
      now - mtime ≤ 9999 * 3600 →
        rolling_team_features_lookup (some (mtime, df)) now max_age_hours [a1, a2] =
          ⟨true, df, some (mtime, df)⟩) ∧
    ((a1 = none ∨ a1 = some []) → (a2 = none ∨ a2 = some []) →
      rolling_team_features_lookup none now max_age_hours [a1, a2] =
        ⟨true, [], none⟩) ∧
    rolling_team_features_lookup (some (0, df)) 18000 6 [a1, a2] =
      ⟨false, df, some (0, df)⟩ ∧
    (rolling_team_features_lookup (some (0, df)) 25200 6 [a1, a2]).live_attempted
      = true := by
  refine ⟨fun h => ?_, fun h d hd ha1 => ?_, fun h ha1 d hd ha2 => ?_,
    fun h ha1 ha2 h9 => ?_, fun ha1 ha2 => ?_, ?_, ?_⟩
  · simp [rolling_team_features_lookup, read_df_cache, not_lt.mpr h]
  · subst ha1
    cases d with
    | nil => exact absurd rfl hd
    | cons x xs =>
      simp [rolling_team_features_lookup, read_df_cache, h, fetch_team_gamelog]
  · subst ha2
    cases d with
    | nil => exact absurd rfl hd
    | cons x xs =>
      rcases ha1 with h1 | h1 <;> subst h1 <;>
        simp [rolling_team_features_lookup, read_df_cache, h, fetch_team_gamelog]
  · rcases ha1 with h1 | h1 <;> rcases ha2 with h2 | h2 <;> subst h1 <;> subst h2 <;>
      simp [rolling_team_features_lookup, read_df_cache, h, fetch_team_gamelog,
        not_lt.mpr h9]
  · rcases ha1 with h1 | h1 <;> rcases ha2 with h2 | h2 <;> subst h1 <;> subst h2 <;>
      simp [rolling_team_features_lookup, read_df_cache, fetch_team_gamelog]
  · norm_num [rolling_team_features_lookup, read_df_cache]
  · norm_num [rolling_team_features_lookup, read_df_cache]

/-- Witness for C2: the spec's cache scenario at T = 0 with a 6-hour
threshold — served from cache with no live call at T + 5h, and a live
fetch attempted (and its non-empty result served and persisted) at T + 7h. -/
theorem rolling_lookup_tiered_spec_witness :
    rolling_team_features_lookup (some (0, [1])) 18000 6 [some [7], none] =
      ⟨false, [1], some (0, [1])⟩ ∧
    rolling_team_features_lookup (some (0, [1])) 25200 6 [some [7], none] =
      ⟨true, [7], some (25200, [7])⟩ :=
  ⟨(rolling_lookup_tiered_spec 0 18000 6 [1] (some [7]) none).1 (by norm_num),
   (rolling_lookup_tiered_spec 0 25200 6 [1] (some [7]) none).2.1 (by norm_num) [7]
     (by decide) rfl⟩
